import Mathlib

/-!
Verification of the golfstar-booker availability pipeline.

The definitions below are a shallow embedding of the Python sources:
  - `src/golfstar_booker/api/client.py` (competition filter, response
    normalization, per-course aggregation, final sort),
  - `src/golfstar_booker/cli/app.py` (course selection, argument validation,
    course-metadata enrichment),
  - `src/golfstar_booker/models/teetime.py` and `models/course.py` (the data
    model, projected onto the fields the pipeline reads).

Conventions of the embedding:
  - JSON instants (the textual "from"/"to" timestamps) are modelled as
    integers (an epoch encoding); parsing of the textual form is not modelled.
  - A field of type `Option X` models a JSON key that may be absent
    (`none` = key absent), matching the Python `dict.get(key, default)`
    accesses in the source.
  - Machine integers are modelled as `Int` (Python integers are unbounded).
  - Fallible operations return `Except`.
-/

namespace GolfstarBooker

/-- Models Python `str.lower` for a single character, on the alphabet that
occurs in this program: ASCII letters plus the Swedish letters that appear in
the competition marker ("tävling"/"Tävling"). Python's `str.lower` is full
Unicode; on any character outside this alphabet the program never depends on
the result. -/
def pyCharLower (c : Char) : Char :=
  if c = 'Ä' then 'ä'
  else if c = 'Å' then 'å'
  else if c = 'Ö' then 'ö'
  else c.toLower

/-- Models Python `str.lower` (characterwise, see `pyCharLower`). -/
def pyLower (s : String) : String :=
  ⟨s.data.map pyCharLower⟩

/-- Models the Python substring test `pat in s`. -/
def pyContains (s pat : String) : Bool :=
  decide (pat.data <:+: s.data)

/-- Category sub-object of a raw tee-time record (wire keys `description` and
`custom_name`); also the payload of the validated `TeeTimeCategory` model,
whose other optional fields the pipeline never reads. -/
structure RawCategory where
  description : Option String
  custom_name : Option String
deriving DecidableEq, Repr

/-- Club sub-object of a raw course sub-object (wire key `club`); the code
reads only its `name`. -/
structure RawClub where
  name : Option String
deriving DecidableEq, Repr

/-- Course sub-object of a raw tee-time record (wire key `course`). -/
structure RawCourse where
  id : Option Int
  uuid : Option String
  name : Option String
  club : Option RawClub
deriving DecidableEq, Repr

/-- Money record (`models/teetime.py`, class `Money`): every field optional.
The raw wire `price` dict and the validated `Money` model have the same
fields, so this type serves as both. -/
structure Money where
  amount : Option Int
  currency : Option String
  formatted : Option String
deriving DecidableEq, Repr

/-- A raw tee-time record as returned by `GET /tee-times`, projected onto the
keys the pipeline reads: `uuid`, `from`, `to`, `available_slots`, `max_slots`,
`price`, `category`, `course`. The wire key `from` is named `from_time` here
(matching the alias in the `TeeTime` pydantic model). -/
structure RawItem where
  uuid : Option String
  from_time : Option Int
  to_time : Option Int
  available_slots : Option Int
  max_slots : Option Int
  price : Option Money
  category : Option RawCategory
  course : Option RawCourse
deriving DecidableEq, Repr

/-- Simplified course info embedded in a tee time (`models/teetime.py`, class
`TeeTimeCourse`). -/
structure TeeTimeCourse where
  id : Int
  uuid : String
  name : String
  club_name : Option String
deriving DecidableEq, Repr

/-- A validated tee time (`models/teetime.py`, class `TeeTime`), projected
onto the fields the pipeline constructs and reads. `uuid` is the one required
field of the pydantic model; `available_slots` and `max_slots` default to 0
when absent from the raw record; `from_time`/`to_time` keep absence as
`none`. -/
structure TeeTime where
  uuid : String
  from_time : Option Int
  to_time : Option Int
  available_slots : Int
  max_slots : Int
  price : Option Money
  category : Option RawCategory
  course : Option TeeTimeCourse
deriving DecidableEq, Repr

/-- Translation of `is_competition_time` (`api/client.py`, lines 16 to 36).
`tee_time_data.get("category", \x7b\x7d)` yields an empty (falsy) dict when the
key is absent, so both an absent and an empty category short-circuit to
`false`; otherwise the lowercased `description` and `custom_name` (defaulted
to the empty string) are tested for the substring "tävling". -/
def is_competition_time (tee_time_data : RawItem) : Bool :=
  match tee_time_data.category with
  | none => false
  | some category =>
    if category.description = none ∧ category.custom_name = none then
      false
    else
      let description := pyLower (category.description.getD "")
      let custom_name := pyLower (category.custom_name.getD "")
      pyContains description "tävling" || pyContains custom_name "tävling"

/-- Translation of the course-info mapping inside the per-item loop of
`get_available_times` (`api/client.py`, lines 191 to 210): a present course
dict contributes its `id`/`uuid`/`name` with defaults (the queried
`course_uuid` substitutes a missing `uuid`), and `club.name` when a club
sub-object is present; an absent course dict yields the minimal info with the
queried UUID. -/
def normalizeCourse (course_uuid : String) (rc : Option RawCourse) : TeeTimeCourse :=
  match rc with
  | some c =>
      { id := c.id.getD 0
        uuid := c.uuid.getD course_uuid
        name := c.name.getD ""
        club_name := some (match c.club with
          | some cl => cl.name.getD ""
          | none => "") }
  | none => { id := 0, uuid := course_uuid, name := "", club_name := some "" }

/-- Translation of the body of the per-item loop of `get_available_times`
(`api/client.py`, lines 186 to 224). A record is dropped (`none`) when its
`available_slots` (defaulted to 0) is below the requested player count, when
the competition filter classifies it as a competition, or when the `TeeTime`
construction fails validation — in the modelled field space the only
validation failure is a missing `uuid` (the one required field), and such a
per-record failure is caught and skipped in the source. The source runs the
competition check after the course/price mapping and the uuid validation
happens inside the `TeeTime` constructor; neither reordering is observable in
the result. -/
def processItem (players : Int) (course_uuid : String) (item : RawItem) :
    Option TeeTime :=
  let available_slots := item.available_slots.getD 0
  if available_slots ≥ players then
    if is_competition_time item then
      none
    else
      match item.uuid with
      | some u =>
          some { uuid := u
                 from_time := item.from_time
                 to_time := item.to_time
                 available_slots := available_slots
                 max_slots := item.max_slots.getD 0
                 price := item.price
                 category := item.category
                 course := some (normalizeCourse course_uuid item.course) }
      | none => none
  else
    none

/-- The two tolerated shapes of a `GET /tee-times` response body: a bare JSON
array, or an envelope object whose member list may sit under `hydra:member`
or under `items` (either key possibly absent). -/
inductive ResponseData where
  | listResp (items : List RawItem)
  | envelope (hydraMember : Option (List RawItem)) (items : Option (List RawItem))
deriving DecidableEq, Repr

/-- Translation of the envelope handling in `get_available_times`
(`api/client.py`, lines 179 to 183): a bare list is used as-is; otherwise
`data.get("hydra:member", data.get("items", []))`. -/
def extractItems : ResponseData → List RawItem
  | .listResp items => items
  | .envelope (some members) _ => members
  | .envelope none (some items) => items
  | .envelope none none => []

/-- Outcome of one per-course `GET /tee-times` request: a parsed payload, an
HTTP error status (everything `raise_for_status` turns into an
`httpx.HTTPError`, including 401), or any other transport/parse failure
(caught by the per-course `except Exception`). -/
inductive CourseResponse where
  | payload (data : ResponseData)
  | httpError (status : Nat)
  | parseFailure
deriving DecidableEq, Repr

/-- Whether a course response is a transport-level failure (HTTP error or
parse error) rather than a payload. -/
def isTransportFailure : CourseResponse → Bool
  | .payload _ => false
  | .httpError _ => true
  | .parseFailure => true

/-- The tee times one course contributes to the accumulator in
`get_available_times` (`api/client.py`, lines 161 to 234): the normalized
survivors of its payload, or nothing when the request failed (both `except`
arms log and continue without raising). -/
def perCourseTimes (players : Int) (course_uuid : String) :
    CourseResponse → List TeeTime
  | .payload d => (extractItems d).filterMap (processItem players course_uuid)
  | .httpError _ => []
  | .parseFailure => []

/-- Sort key of the final sort (`api/client.py`, line 237): `t.from_time`,
with `none` collapsed to an arbitrary value (the sort is only ever run when
every key is present, or on a list too short to compare). -/
def teeKey (t : TeeTime) : Int :=
  t.from_time.getD 0

/-- Ascending run of the distinct sort keys occurring in a list. -/
def sortedKeys (l : List TeeTime) : List Int :=
  List.insertionSort (· ≤ ·) (l.map teeKey).dedup

/-- A stable sort by `teeKey`, written in counting-sort style: the buckets of
equal-key elements, in ascending key order, each bucket keeping the original
arrival order. This is extensionally the behavior Python documents for
`list.sort(key=...)`, which is guaranteed stable. -/
def stableSortByFrom (l : List TeeTime) : List TeeTime :=
  (sortedKeys l).flatMap (fun k => l.filter (fun t => decide (teeKey t = k)))

/-- Failure mode of the final sort. -/
inductive SortError where
  | typeErrorNoneComparison
deriving DecidableEq, Repr

/-- Translation of `all_tee_times.sort(key=lambda t: t.from_time)`
(`api/client.py`, line 237) under Python semantics: `list.sort` is a stable
sort by key; on a list of two or more elements any `None` key is compared
against another key during the sort and the comparison raises an unhandled
`TypeError` (`None` supports no order comparison); a list of at most one
element is returned unchanged without any comparison. -/
def pySortByFromTime (l : List TeeTime) : Except SortError (List TeeTime) :=
  if l.length ≤ 1 then .ok l
  else if l.all (fun t => t.from_time.isSome) then .ok (stableSortByFrom l)
  else .error .typeErrorNoneComparison

/-- Translation of `GolfstarAPIClient.get_available_times` (`api/client.py`,
lines 119 to 239) over the per-course responses: each queried course UUID is
paired with the outcome of its request; contributions are concatenated in
query order and the combined list is sorted by `from_time`. -/
def get_available_times (players : Int)
    (responses : List (String × CourseResponse)) :
    Except SortError (List TeeTime) :=
  pySortByFromTime (responses.flatMap (fun p => perCourseTimes players p.1 p.2))

/-- Club record (`models/course.py`, class `Club`): the required fields. -/
structure Club where
  id : Int
  uuid : String
  name : String
  slug : String
deriving DecidableEq, Repr

/-- Course record (`models/course.py`, class `Course`), projected onto the
fields the availability pipeline reads: `id`, `uuid`, `club`, `name`. The
remaining (mostly optional, display-oriented) fields are never consulted by
the code under verification. -/
structure Course where
  id : Int
  uuid : String
  club : Club
  name : String
deriving DecidableEq, Repr

/-- Lookup in the Python dict `\x7bcourse.uuid: course for course in courses\x7d`
(`cli/app.py`, line 563): for a duplicated UUID the later course wins, hence
the first match in the reversed list. -/
def courseMapLookup (courses : List Course) (u : String) : Option Course :=
  courses.reverse.find? (fun c => c.uuid == u)

/-- Translation of the UUID resolution inside the enrichment loop
(`cli/app.py`, lines 576 to 581): `if tt.course and tt.course.uuid` (an empty
uuid string is falsy); the `hasattr(tt, "_course_uuid")` fallback never fires
because pydantic models have no such attribute. -/
def resolveCourseUuid (tt : TeeTime) : Option String :=
  match tt.course with
  | some c => if c.uuid ≠ "" then some c.uuid else none
  | none => none

/-- Translation of the course-metadata enrichment step of the `availability`
command (`cli/app.py`, lines 574 to 591): when the resolved UUID has a match
in the course mapping, the tee time's course reference is overwritten with
one built from the matching full Course (id, uuid, name, club name);
otherwise the tee time is left untouched. -/
def enrichTeeTime (courses : List Course) (tt : TeeTime) : TeeTime :=
  match resolveCourseUuid tt with
  | some u =>
    match courseMapLookup courses u with
    | some course =>
        { tt with course := some { id := course.id
                                   uuid := course.uuid
                                   name := course.name
                                   club_name := some course.club.name } }
    | none => tt
  | none => tt

/-- The enrichment loop applied to every fetched tee time. -/
def enrichAll (courses : List Course) (tts : List TeeTime) : List TeeTime :=
  tts.map (enrichTeeTime courses)

/-- Order-preserving deduplication by course id with an accumulating seen-set
(`cli/app.py`, lines 244 to 251). -/
def dedupByIdAux (seen : List Int) : List Course → List Course
  | [] => []
  | c :: rest =>
    if c.id ∈ seen then dedupByIdAux seen rest
    else c :: dedupByIdAux (c.id :: seen) rest

/-- Translation of `get_courses_by_criteria` (`cli/app.py`, lines 205 to
252): the full catalog when `all_courses`; otherwise the first catalog match
for each requested id, then every catalog course whose lowercased name
contains a lowercased name query, deduplicated by id preserving first-seen
order. Unmatched ids and queries only produce warnings. -/
def get_courses_by_criteria (catalog : List Course) (course_ids : List Int)
    (course_names : List String) (all_courses : Bool) : List Course :=
  if all_courses then catalog
  else
    let byId := course_ids.filterMap (fun i => catalog.find? (fun c => c.id == i))
    let byName := course_names.flatMap
      (fun q => catalog.filter (fun c => pyContains (pyLower c.name) (pyLower q)))
    dedupByIdAux [] (byId ++ byName)

/-- Configuration errors of the `availability` command, rejected before any
network request (`cli/app.py`, lines 504 to 526). -/
inductive ConfigError where
  | noCourseSelector
  | endBeforeStart
deriving DecidableEq, Repr

/-- Terminal failures of the `availability` command. -/
inductive CliError where
  | config (e : ConfigError)
  | noCoursesFound
  | sortFailure (e : SortError)
deriving DecidableEq, Repr

/-- Caller-supplied arguments of the `availability` command, after date
parsing: the claims under verification concern runs where both the start and
the end instant were supplied by the caller, so both are already concrete
instants here. -/
structure AvailabilityArgs where
  course_ids : List Int
  course_names : List String
  all_courses : Bool
  start_dt : Int
  end_dt : Int
  players : Int
deriving DecidableEq, Repr

/-- Record of the I/O a run performed: whether the course catalog was fetched
(`get_courses`) and which course UUIDs were queried against `/tee-times`. -/
structure RunTrace where
  catalogFetched : Bool
  teeTimeQueries : List String
deriving DecidableEq, Repr

/-- Translation of the control flow of the `availability` command
(`cli/app.py`, lines 463 to 610): selector validation, then date-range
validation, both before any network I/O; then the catalog fetch and course
selection; then one `/tee-times` query per selected course via
`get_available_times`; finally the enrichment step. `catalog` models what
`get_courses` would return and `oracle` models the per-course `/tee-times`
outcomes; the trace records which of these were actually consulted. -/
def availability_run (args : AvailabilityArgs) (catalog : List Course)
    (oracle : String → CourseResponse) :
    RunTrace × Except CliError (List TeeTime) :=
  if args.course_ids = [] ∧ args.course_names = [] ∧ args.all_courses = false then
    (⟨false, []⟩, .error (.config .noCourseSelector))
  else if args.end_dt < args.start_dt then
    (⟨false, []⟩, .error (.config .endBeforeStart))
  else
    let courses := get_courses_by_criteria catalog args.course_ids
      args.course_names args.all_courses
    if courses = [] then
      (⟨true, []⟩, .error .noCoursesFound)
    else
      let uuids := courses.map (fun c => c.uuid)
      match get_available_times args.players (uuids.map (fun u => (u, oracle u))) with
      | .ok tts => (⟨true, uuids⟩, .ok (enrichAll courses tts))
      | .error e => (⟨true, uuids⟩, .error (.sortFailure e))

/-- Three valid raw records for an example course B: ascending start times,
two free slots each, no category, no embedded course info. -/
def bItem1Ex : RawItem :=
  { uuid := some "b1", from_time := some 100, to_time := none,
    available_slots := some 2, max_slots := some 4,
    price := none, category := none, course := none }

/-- Second example record for course B. -/
def bItem2Ex : RawItem :=
  { bItem1Ex with uuid := some "b2", from_time := some 200 }

/-- Third example record for course B. -/
def bItem3Ex : RawItem :=
  { bItem1Ex with uuid := some "b3", from_time := some 300 }

/-- Example payload of course B: a bare list of the three records above. -/
def bPayloadEx : ResponseData :=
  .listResp [bItem1Ex, bItem2Ex, bItem3Ex]

/-- The tee time the pipeline produces from `bItem1Ex` when queried as course
UUID "B". -/
def bTee1Ex : TeeTime :=
  { uuid := "b1", from_time := some 100, to_time := none,
    available_slots := 2, max_slots := 4, price := none, category := none,
    course := some { id := 0, uuid := "B", name := "", club_name := some "" } }

/-- The tee time produced from `bItem2Ex`. -/
def bTee2Ex : TeeTime :=
  { bTee1Ex with uuid := "b2", from_time := some 200 }

/-- The tee time produced from `bItem3Ex`. -/
def bTee3Ex : TeeTime :=
  { bTee1Ex with uuid := "b3", from_time := some 300 }

/-- Example competition record: four free slots but a category description
containing the competition marker. -/
def compItemEx : RawItem :=
  { uuid := some "comp1", from_time := some 100, to_time := none,
    available_slots := some 4, max_slots := some 4, price := none,
    category := some { description := some "Tävling bokad av GK", custom_name := none },
    course := none }

/-- Example record with a single free slot. -/
def lowSlotItemEx : RawItem :=
  { uuid := some "low1", from_time := some 100, to_time := none,
    available_slots := some 1, max_slots := some 4,
    price := none, category := none, course := none }

/-- The raw record of the envelope-tolerance example of the specification:
uuid t1, start 2025-01-15T07:00:00Z (epoch 1736924400), 2 of 4 slots free. -/
def t1ItemEx : RawItem :=
  { uuid := some "t1", from_time := some 1736924400, to_time := none,
    available_slots := some 2, max_slots := some 4,
    price := none, category := none, course := none }

/-- The tee time the pipeline produces from `t1ItemEx` when queried as course
UUID "course-1". -/
def t1TeeEx : TeeTime :=
  { uuid := "t1", from_time := some 1736924400, to_time := none,
    available_slots := 2, max_slots := 4, price := none, category := none,
    course := some { id := 0, uuid := "course-1", name := "", club_name := some "" } }

/-- Example tee time whose embedded course UUID matches nothing in an
enrichment mapping built from an empty course list. -/
def unmatchedTeeEx : TeeTime :=
  { uuid := "x1", from_time := some 100, to_time := none,
    available_slots := 2, max_slots := 4, price := none, category := none,
    course := some { id := 7, uuid := "no-match", name := "Partial", club_name := none } }

/-- Example arguments with the end instant strictly before the start
instant. -/
def c9ArgsEx : AvailabilityArgs :=
  { course_ids := [1], course_names := [], all_courses := false,
    start_dt := 100, end_dt := 50, players := 2 }

/-- Surviving record with a start time, for the missing-timestamp batch. -/
def withFromItemEx : RawItem :=
  { uuid := some "w1", from_time := some 100, to_time := none,
    available_slots := some 1, max_slots := some 4,
    price := none, category := none, course := none }

/-- Surviving record without a start time (wire key `from` absent, so the
validated `from_time` is `none`). -/
def noFromItemEx : RawItem :=
  { uuid := some "w2", from_time := none, to_time := none,
    available_slots := some 1, max_slots := some 4,
    price := none, category := none, course := none }

/-- The record sequence of a raw record, as the specification states the
competition rule: some category is present whose lowercased description or
lowercased custom name contains the substring "tävling". -/
def CompetitionMarked (item : RawItem) : Prop :=
  ∃ cat, item.category = some cat ∧
    (("tävling".data <:+: (pyLower (cat.description.getD "")).data) ∨
     ("tävling".data <:+: (pyLower (cat.custom_name.getD "")).data))

/-- Raw record with a tie-breaking start time, for the stability example. -/
def s1ItemEx : RawItem :=
  { bItem1Ex with uuid := some "s1", from_time := some 100 }

/-- Second record sharing the same start time as `s1ItemEx`. -/
def s2ItemEx : RawItem :=
  { bItem1Ex with uuid := some "s2", from_time := some 100 }

/-- Record with an earlier start time, arriving last. -/
def s3ItemEx : RawItem :=
  { bItem1Ex with uuid := some "s3", from_time := some 50 }

/-- Single-course batch for the sorting/stability example. -/
def c5BatchEx : List (String × CourseResponse) :=
  [("A", .payload (.listResp [s1ItemEx, s2ItemEx, s3ItemEx]))]

/-- Minimal course reference for query UUID "A". -/
def aCourseRefEx : TeeTimeCourse :=
  { id := 0, uuid := "A", name := "", club_name := some "" }

/-- Tee time produced from `s1ItemEx` under query UUID "A". -/
def s1TeeEx : TeeTime :=
  { bTee1Ex with uuid := "s1", from_time := some 100, course := some aCourseRefEx }

/-- Tee time produced from `s2ItemEx` under query UUID "A". -/
def s2TeeEx : TeeTime :=
  { bTee1Ex with uuid := "s2", from_time := some 100, course := some aCourseRefEx }

/-- Tee time produced from `s3ItemEx` under query UUID "A". -/
def s3TeeEx : TeeTime :=
  { bTee1Ex with uuid := "s3", from_time := some 50, course := some aCourseRefEx }

theorem enrichTeeTime_of_resolve_none {courses : List Course} {tt : TeeTime}
    (h : resolveCourseUuid tt = none) : enrichTeeTime courses tt = tt := by
  simp [enrichTeeTime, h]

theorem enrichTeeTime_of_lookup_none {courses : List Course} {tt : TeeTime}
    {u : String} (h : resolveCourseUuid tt = some u)
    (h2 : courseMapLookup courses u = none) : enrichTeeTime courses tt = tt := by
  simp [enrichTeeTime, h, h2]

theorem enrichTeeTime_of_lookup_some {courses : List Course} {tt : TeeTime}
    {u : String} {course : Course} (h : resolveCourseUuid tt = some u)
    (h2 : courseMapLookup courses u = some course) :
    enrichTeeTime courses tt =
      { tt with course := some { id := course.id, uuid := course.uuid,
                                 name := course.name,
                                 club_name := some course.club.name } } := by
  simp [enrichTeeTime, h, h2]

theorem courseMapLookup_uuid {courses : List Course} {u : String} {c : Course}
    (h : courseMapLookup courses u = some c) : c.uuid = u := by
  unfold courseMapLookup at h
  have := List.find?_some h
  simpa using this

theorem resolveCourseUuid_ne_empty {tt : TeeTime} {u : String}
    (h : resolveCourseUuid tt = some u) : u ≠ "" := by
  cases htt : tt.course with
  | none => simp [resolveCourseUuid, htt] at h
  | some c =>
    by_cases hc : c.uuid = ""
    · simp [resolveCourseUuid, htt, hc] at h
    · simp [resolveCourseUuid, htt, hc] at h
      exact h ▸ hc

/-- C6: the course-metadata enrichment step is idempotent: for every tee time
and every course mapping (built, as in the source, from a list of full Course
records keyed by their UUID), applying the enrichment twice with the same
mapping yields the same result as applying it once. -/
theorem c6_enrichment_idempotent (courses : List Course) (tt : TeeTime) :
    enrichTeeTime courses (enrichTeeTime courses tt) = enrichTeeTime courses tt := by
  cases hres : resolveCourseUuid tt with
  | none => simp only [enrichTeeTime_of_resolve_none hres]
  | some u =>
    cases hlook : courseMapLookup courses u with
    | none => simp only [enrichTeeTime_of_lookup_none hres hlook]
    | some course =>
      have hu : course.uuid = u := courseMapLookup_uuid hlook
      have hne : u ≠ "" := resolveCourseUuid_ne_empty hres
      have h1 : enrichTeeTime courses tt =
          { tt with course := some { id := course.id, uuid := course.uuid,
                                     name := course.name,
                                     club_name := some course.club.name } } :=
        enrichTeeTime_of_lookup_some hres hlook
      have h2 : resolveCourseUuid
          ({ tt with course := some { id := course.id, uuid := course.uuid,
                                      name := course.name,
                                      club_name := some course.club.name } } :
            TeeTime) = some u := by
        show (if course.uuid ≠ "" then some course.uuid else none) = some u
        rw [hu, if_pos hne]
      rw [h1]
      rw [enrichTeeTime_of_lookup_some h2 hlook]

/-- C7: a tee time whose resolved course UUID is absent from the enrichment
mapping, and a tee time with no resolvable course UUID at all, keep exactly
the course reference the normalizer produced; and the enrichment never alters
any field other than `course` of any tee time. -/
theorem c7_unmatched_uuid_untouched (courses : List Course) (tt : TeeTime) :
    (resolveCourseUuid tt = none → enrichTeeTime courses tt = tt) ∧
    (∀ u, resolveCourseUuid tt = some u → courseMapLookup courses u = none →
      enrichTeeTime courses tt = tt) ∧
    (enrichTeeTime courses tt).uuid = tt.uuid ∧
    (enrichTeeTime courses tt).from_time = tt.from_time ∧
    (enrichTeeTime courses tt).to_time = tt.to_time ∧
    (enrichTeeTime courses tt).available_slots = tt.available_slots ∧
    (enrichTeeTime courses tt).max_slots = tt.max_slots ∧
    (enrichTeeTime courses tt).price = tt.price ∧
    (enrichTeeTime courses tt).category = tt.category := by
  refine ⟨fun h => enrichTeeTime_of_resolve_none h,
          fun u h h2 => enrichTeeTime_of_lookup_none h h2, ?_⟩
  cases hres : resolveCourseUuid tt with
  | none =>
    rw [enrichTeeTime_of_resolve_none hres]
    exact ⟨rfl, rfl, rfl, rfl, rfl, rfl, rfl⟩
  | some u =>
    cases hlook : courseMapLookup courses u with
    | none =>
      rw [enrichTeeTime_of_lookup_none hres hlook]
      exact ⟨rfl, rfl, rfl, rfl, rfl, rfl, rfl⟩
    | some course =>
      rw [enrichTeeTime_of_lookup_some hres hlook]
      exact ⟨rfl, rfl, rfl, rfl, rfl, rfl, rfl⟩

/-- Witness for C7 at a concrete input: a tee time whose embedded UUID has no
match in a mapping built from an empty course list is returned unchanged. -/
theorem c7_unmatched_uuid_untouched_witness :
    enrichTeeTime [] unmatchedTeeEx = unmatchedTeeEx :=
  (c7_unmatched_uuid_untouched [] unmatchedTeeEx).2.1 "no-match" rfl rfl

/-- C2: a transport-level failure (HTTP error or parse failure) of one course
in a multi-course query contributes zero records and leaves the aggregate over
the remaining courses unchanged. -/
theorem c2_transport_failure_isolated (players : Int) (uuid : String)
    (r : CourseResponse) (pre post : List (String × CourseResponse))
    (h : isTransportFailure r = true) :
    perCourseTimes players uuid r = [] ∧
    get_available_times players (pre ++ (uuid, r) :: post) =
      get_available_times players (pre ++ post) := by
  have hempty : perCourseTimes players uuid r = [] := by
    cases r with
    | payload d => simp [isTransportFailure] at h
    | httpError s => rfl
    | parseFailure => rfl
  refine ⟨hempty, ?_⟩
  unfold get_available_times
  rw [List.flatMap_append, List.flatMap_append, List.flatMap_cons]
  simp only [hempty, List.nil_append]

/-- Witness for C2 at the concrete two-course example of the specification:
course A fails with an HTTP 500 and course B returns three valid records; the
aggregate equals the one of querying B alone. -/
theorem c2_transport_failure_isolated_witness :
    isTransportFailure (.httpError 500) = true ∧
    get_available_times 2 ([] ++ ("A", .httpError 500) :: [("B", .payload bPayloadEx)]) =
      get_available_times 2 ([] ++ [("B", .payload bPayloadEx)]) :=
  ⟨rfl, (c2_transport_failure_isolated 2 "A" (.httpError 500) []
    [("B", .payload bPayloadEx)] rfl).2⟩

/-- C1: code bug. An HTTP 401 on one course during a multi-course query is
swallowed inside `get_available_times` exactly like any other per-course
transport failure (`api/client.py`, lines 226 to 234, catches
`httpx.HTTPError` and continues): the aggregate returns normally with the
course contributing zero records, so the authorization-error handler of the
CLI (`cli/app.py`, lines 592 to 604) can never fire for a per-course 401 and
no authorization error reaches the caller, contrary to the specification. -/
theorem c1_per_course_401_not_surfaced :
    get_available_times 2 [("A", .httpError 401), ("B", .payload bPayloadEx)] =
      .ok [bTee1Ex, bTee2Ex, bTee3Ex] := by
  rfl

/-- C4: a raw record whose `available_slots` (0 when absent) is strictly
below the requested player count is dropped without an error and the rest of
the batch is processed unchanged. -/
theorem c4_low_slots_excluded (players : Int) (course_uuid : String)
    (item : RawItem) (rest : List RawItem)
    (h : item.available_slots.getD 0 < players) :
    processItem players course_uuid item = none ∧
    List.filterMap (processItem players course_uuid) (item :: rest) =
      List.filterMap (processItem players course_uuid) rest := by
  have hcond : ¬(item.available_slots.getD 0 ≥ players) := not_le.mpr h
  have h1 : processItem players course_uuid item = none := by
    simp [processItem, hcond]
  exact ⟨h1, by rw [List.filterMap_cons, h1]⟩

/-- Witness for C4 at a concrete input: a record with one free slot is dropped
from a two-player query while the rest of the batch still yields its
record. -/
theorem c4_low_slots_excluded_witness :
    lowSlotItemEx.available_slots.getD 0 < 2 ∧
    List.filterMap (processItem 2 "c") (lowSlotItemEx :: [bItem1Ex]) =
      List.filterMap (processItem 2 "c") [bItem1Ex] :=
  ⟨by decide, (c4_low_slots_excluded 2 "c" lowSlotItemEx [bItem1Ex] (by decide)).2⟩

/-- C8: the normalizer tolerates all three response shapes — bare list used
as-is, envelope with `hydra:member` preferred, envelope falling back to
`items`, neither key giving the empty sequence — and the concrete
items-envelope example with record t1 (2 of 4 slots) yields exactly the one
expected tee time for any requested player count of at most 2. -/
theorem c8_envelope_tolerance (players : Int) (hp : players ≤ 2) :
    (∀ xs, extractItems (.listResp xs) = xs) ∧
    (∀ m i, extractItems (.envelope (some m) i) = m) ∧
    (∀ i, extractItems (.envelope none (some i)) = i) ∧
    extractItems (.envelope none none) = [] ∧
    perCourseTimes players "course-1" (.payload (.envelope none (some [t1ItemEx]))) =
      [t1TeeEx] := by
  refine ⟨fun xs => rfl, fun m i => rfl, fun i => rfl, rfl, ?_⟩
  have hcond : t1ItemEx.available_slots.getD 0 ≥ players := by
    simpa [t1ItemEx] using hp
  have hstep : processItem players "course-1" t1ItemEx = some t1TeeEx := by
    simp only [processItem]
    rw [if_pos hcond]
    rfl
  show List.filterMap (processItem players "course-1") [t1ItemEx] = [t1TeeEx]
  simp [List.filterMap_cons, hstep]

/-- Witness for C8 at player count 2. -/
theorem c8_envelope_tolerance_witness :
    (2 : Int) ≤ 2 ∧
    perCourseTimes 2 "course-1" (.payload (.envelope none (some [t1ItemEx]))) =
      [t1TeeEx] :=
  ⟨by decide, (c8_envelope_tolerance 2 (by decide)).2.2.2.2⟩

/-- C9: when the caller-supplied end instant is strictly before the start
instant, the availability command stops with a configuration error before any
catalog fetch or course query: the trace shows no I/O and the outcome is a
`ConfigError`, for every catalog and every query oracle. -/
theorem c9_end_before_start_rejected (args : AvailabilityArgs)
    (catalog : List Course) (oracle : String → CourseResponse)
    (h : args.end_dt < args.start_dt) :
    (availability_run args catalog oracle).1 = ⟨false, []⟩ ∧
    ∃ e : ConfigError,
      (availability_run args catalog oracle).2 = .error (.config e) := by
  unfold availability_run
  by_cases hsel : args.course_ids = [] ∧ args.course_names = [] ∧
      args.all_courses = false
  · rw [if_pos hsel]
    exact ⟨rfl, ⟨.noCourseSelector, rfl⟩⟩
  · rw [if_neg hsel, if_pos h]
    exact ⟨rfl, ⟨.endBeforeStart, rfl⟩⟩

/-- Witness for C9 at a concrete input: end 50 before start 100, with an id
selector, an empty catalog and an oracle that would fail every query; the
run performs no I/O and stops with a configuration error. -/
theorem c9_end_before_start_rejected_witness :
    c9ArgsEx.end_dt < c9ArgsEx.start_dt ∧
    (availability_run c9ArgsEx [] (fun _ => .parseFailure)).1 = ⟨false, []⟩ ∧
    ∃ e : ConfigError,
      (availability_run c9ArgsEx [] (fun _ => .parseFailure)).2 = .error (.config e) :=
  ⟨by decide, c9_end_before_start_rejected c9ArgsEx [] (fun _ => .parseFailure) (by decide)⟩

/-- C10: the final sort is not total on batches with a missing start time: a
batch in which one surviving record carries a `from` timestamp and another
lacks it makes the whole aggregation fail (the sort compares `None` with a
datetime, an unhandled `TypeError`) instead of returning the valid
records. -/
theorem c10_missing_from_typeerror :
    get_available_times 1
        [("A", .payload (.listResp [withFromItemEx, noFromItemEx]))] =
      .error .typeErrorNoneComparison := by
  rfl

/-- C3: the competition filter returns true exactly when the category
sub-object is present and its lowercased description or custom name contains
the substring "tävling"; an absent category and an empty category both yield
false; and a record classified as a competition is never promoted to a
TeeTime by the per-item normalizer, regardless of its slot count. -/
theorem c3_competition_filter (players : Int) (course_uuid : String)
    (item : RawItem) :
    (is_competition_time item = true ↔ CompetitionMarked item) ∧
    (item.category = none → is_competition_time item = false) ∧
    (item.category = some { description := none, custom_name := none } →
      is_competition_time item = false) ∧
    (is_competition_time item = true →
      processItem players course_uuid item = none) := by
  have hiff : is_competition_time item = true ↔ CompetitionMarked item := by
    cases hcat : item.category with
    | none => simp [is_competition_time, CompetitionMarked, hcat]
    | some cat =>
      by_cases hempty : cat.description = none ∧ cat.custom_name = none
      · rw [show is_competition_time item = false by
          simp [is_competition_time, hcat, hempty.1, hempty.2]]
        simp only [Bool.false_eq_true, false_iff, CompetitionMarked, hcat]
        rintro ⟨cat2, hcat2, hor⟩
        cases hcat2
        rw [hempty.1, hempty.2] at hor
        cases hor with
        | inl hh => exact absurd hh (by decide)
        | inr hh => exact absurd hh (by decide)
      · have hbody : is_competition_time item =
            (pyContains (pyLower (cat.description.getD "")) "tävling" ||
             pyContains (pyLower (cat.custom_name.getD "")) "tävling") := by
          simp [is_competition_time, hcat, hempty]
        rw [hbody]
        simp [pyContains, CompetitionMarked, hcat]
  refine ⟨hiff, ?_, ?_, ?_⟩
  · intro h
    simp [is_competition_time, h]
  · intro h
    simp [is_competition_time, h]
  · intro hcomp
    by_cases hsl : item.available_slots.getD 0 ≥ players
    · simp [processItem, hsl, hcomp]
    · simp [processItem, hsl]

/-- Witness for C3 at a concrete input: a record with a category description
containing the marker and four free slots is classified as a competition and
dropped by the normalizer even for a one-player query. -/
theorem c3_competition_filter_witness :
    is_competition_time compItemEx = true ∧
    processItem 1 "course-a" compItemEx = none :=
  ⟨rfl, (c3_competition_filter 1 "course-a" compItemEx).2.2.2 rfl⟩

theorem sortedKeys_sorted (l : List TeeTime) :
    (sortedKeys l).Pairwise (fun a b : Int => a ≤ b) :=
  List.sorted_insertionSort _ _

theorem sortedKeys_nodup (l : List TeeTime) : (sortedKeys l).Nodup :=
  (List.perm_insertionSort _ _).symm.nodup (List.nodup_dedup _)

theorem mem_sortedKeys {l : List TeeTime} {k : Int} :
    k ∈ sortedKeys l ↔ k ∈ l.map teeKey := by
  unfold sortedKeys
  rw [(List.perm_insertionSort _ _).mem_iff, List.mem_dedup]

theorem filter_bucket_ne {l : List TeeTime} {k0 k : Int} (h : k0 ≠ k) :
    (l.filter (fun t => decide (teeKey t = k0))).filter
      (fun t => decide (teeKey t = k)) = [] := by
  rw [List.filter_filter]
  rw [List.filter_eq_nil_iff]
  intro a _
  simp only [Bool.and_eq_true, decide_eq_true_eq, not_and]
  intro h1 h2
  exact h (h2 ▸ h1 ▸ rfl)

theorem flatMap_buckets_filter {l : List TeeTime} {k : Int} :
    ∀ ks : List Int, ks.Nodup →
      (ks.flatMap fun k0 =>
          (l.filter (fun t => decide (teeKey t = k0))).filter
            (fun t => decide (teeKey t = k))) =
        if k ∈ ks then l.filter (fun t => decide (teeKey t = k)) else []
  | [], _ => by simp
  | k0 :: ks, hnd => by
    rw [List.flatMap_cons, flatMap_buckets_filter ks hnd.of_cons]
    by_cases hk : k0 = k
    · subst hk
      have hnotin : k0 ∉ ks := (List.nodup_cons.mp hnd).1
      rw [if_neg hnotin, if_pos (List.mem_cons_self k0 ks)]
      rw [List.filter_filter]
      simp [Bool.and_self]
    · rw [filter_bucket_ne hk, List.nil_append]
      by_cases hmem : k ∈ ks
      · rw [if_pos hmem, if_pos (List.mem_cons_of_mem k0 hmem)]
      · rw [if_neg hmem, if_neg (by
          intro hc
          rcases List.mem_cons.mp hc with rfl | hc2
          · exact hk rfl
          · exact hmem hc2)]

theorem stableSortByFrom_filter (l : List TeeTime) (k : Int) :
    (stableSortByFrom l).filter (fun t => decide (teeKey t = k)) =
      l.filter (fun t => decide (teeKey t = k)) := by
  unfold stableSortByFrom
  rw [List.filter_flatMap]
  rw [flatMap_buckets_filter (sortedKeys l) (sortedKeys_nodup l)]
  by_cases hmem : k ∈ sortedKeys l
  · rw [if_pos hmem]
  · rw [if_neg hmem]
    symm
    rw [List.filter_eq_nil_iff]
    intro a ha
    simp only [decide_eq_true_eq]
    intro hk
    exact hmem (mem_sortedKeys.mpr (hk ▸ List.mem_map_of_mem teeKey ha))

theorem teeKey_of_mem_bucket {l : List TeeTime} {k : Int} {x : TeeTime}
    (hx : x ∈ l.filter (fun t => decide (teeKey t = k))) : teeKey x = k :=
  of_decide_eq_true (List.mem_filter.mp hx).2

theorem stableSortByFrom_pairwise (l : List TeeTime) :
    (stableSortByFrom l).Pairwise (fun a b => teeKey a ≤ teeKey b) := by
  unfold stableSortByFrom
  rw [List.pairwise_flatMap]
  constructor
  · intro k _
    apply List.pairwise_of_forall_mem_list
    intro x hx y hy
    rw [teeKey_of_mem_bucket hx, teeKey_of_mem_bucket hy]
  · apply (sortedKeys_sorted l).imp
    intro a b hab x hx y hy
    rw [teeKey_of_mem_bucket hx, teeKey_of_mem_bucket hy]
    exact hab

/-- C5: every successful result of `get_available_times` is non-decreasing by
start time, and for each key the subsequence of records with that start time
equals the corresponding subsequence of the pre-sort concatenation — i.e.
records with equal start times keep their original per-course arrival order
(the sort is stable). -/
theorem c5_output_sorted_stable (players : Int)
    (responses : List (String × CourseResponse)) (out : List TeeTime)
    (h : get_available_times players responses = .ok out) :
    out.Pairwise (fun a b => teeKey a ≤ teeKey b) ∧
    ∀ k : Int, out.filter (fun t => decide (teeKey t = k)) =
      (responses.flatMap (fun p => perCourseTimes players p.1 p.2)).filter
        (fun t => decide (teeKey t = k)) := by
  unfold get_available_times pySortByFromTime at h
  set l := responses.flatMap (fun p => perCourseTimes players p.1 p.2) with hl
  by_cases hlen : l.length ≤ 1
  · rw [if_pos hlen] at h
    injection h with h
    subst h
    refine ⟨?_, fun k => rfl⟩
    cases hcase : l with
    | nil => exact List.Pairwise.nil
    | cons a t =>
      cases t with
      | nil => simp
      | cons b t2 => rw [hcase] at hlen; simp at hlen
  · rw [if_neg hlen] at h
    by_cases hall : l.all (fun t => t.from_time.isSome)
    · rw [if_pos hall] at h
      injection h with h
      subst h
      exact ⟨stableSortByFrom_pairwise l, fun k => stableSortByFrom_filter l k⟩
    · rw [if_neg hall] at h
      exact absurd h (by simp)

/-- Witness for C5 at a concrete single-course batch with a tie: two records
share start time 100 and a third arrives last with start time 50; the sorted
output places the early record first and keeps the tied records in arrival
order. -/
theorem c5_output_sorted_stable_witness :
    List.Pairwise (fun a b => teeKey a ≤ teeKey b) [s3TeeEx, s1TeeEx, s2TeeEx] ∧
    ∀ k : Int,
      List.filter (fun t => decide (teeKey t = k)) [s3TeeEx, s1TeeEx, s2TeeEx] =
        (c5BatchEx.flatMap (fun p => perCourseTimes 2 p.1 p.2)).filter
          (fun t => decide (teeKey t = k)) :=
  c5_output_sorted_stable 2 c5BatchEx [s3TeeEx, s1TeeEx, s2TeeEx] rfl

end GolfstarBooker
